import Mathlib

/-!
Shallow embedding of `src/youtube_analysis.py` (class `YouTubeAnalyzer`).

Modelling conventions:
* A pandas cell is `Cell`: `na` (None / NaN missing marker), `num` (a Python
  int or float, modelled as an exact rational — float rounding, overflow to
  infinity, and `nan`/`inf` literals are outside the model), or `str`.
* Python functions that can raise are modelled with `Option` / a returned
  error message: `none` (or `some msg` in the error slot) means an exception
  propagates, `some v` (or `none` in the error slot) is a normal return.
* Python `int(...)` / `float(...)` string parsing is modelled over ASCII:
  optional surrounding whitespace, an optional sign, and a decimal body
  (CPython additionally accepts underscore digit separators and non-ASCII
  digits; those corners are not modelled).
* `numpy`/pandas `.round(n)` is round-half-to-even, modelled exactly on
  rationals.
-/

set_option maxRecDepth 8000

namespace YouTubeAnalysis

/-- One raw cell of the loaded DataFrame. -/
inductive Cell where
  | na : Cell
  | num : Rat → Cell
  | str : String → Cell
deriving DecidableEq, Repr

/-- Whitespace test used by Python `str.strip` (ASCII subset). -/
def pySpace (c : Char) : Bool :=
  c = ' ' || c = '\t' || c = '\n' || c = '\r' || c = '\x0b' || c = '\x0c'

/-- Python `str.strip()`: drop leading and trailing whitespace. -/
def pyStrip (l : List Char) : List Char :=
  ((l.dropWhile pySpace).reverse.dropWhile pySpace).reverse

/-- Python `str.split(sep)` for a one-character separator.
`split` always returns at least one (possibly empty) part. -/
def pySplit (sep : Char) : List Char → List (List Char)
  | [] => [[]]
  | c :: cs =>
    if c = sep then [] :: pySplit sep cs
    else
      match pySplit sep cs with
      | [] => [[c]]
      | p :: ps => (c :: p) :: ps

/-- Value of a run of ASCII digits. -/
def digitsToNat (ds : List Char) : Nat :=
  ds.foldl (fun a c => a * 10 + (c.toNat - 48)) 0

/-- An optional leading sign: `-1`/`+1` and the remainder of the literal. -/
def pySign (l : List Char) : Int × List Char :=
  match l with
  | c :: rest => if c = '-' then (-1, rest) else if c = '+' then (1, rest) else (1, l)
  | [] => (1, l)

/-- Python `int(s)` on a string: strip, optional sign, nonempty digit run.
`none` models a raised `ValueError`. -/
def pyIntOfChars (l : List Char) : Option Int :=
  let (sgn, b) := pySign (pyStrip l)
  if !b.isEmpty && b.all Char.isDigit then some (sgn * (digitsToNat b : Int)) else none

/-- `10 ^ e` as a rational, for an integer exponent. -/
def qpow10 (e : Int) : Rat :=
  if 0 ≤ e then ((10 : Rat) ^ e.toNat) else 1 / ((10 : Rat) ^ (-e).toNat)

/-- Exponent part of a Python float literal: optional sign then digits
(no surrounding whitespace is allowed inside the literal). -/
def pyExp (l : List Char) : Option Int :=
  let (sgn, b) := pySign l
  if !b.isEmpty && b.all Char.isDigit then some (sgn * (digitsToNat b : Int)) else none

/-- Unsigned body of a Python float literal:
`digits [. digits] [exp]` or `. digits [exp]`. -/
def pyFloatBody (l : List Char) : Option Rat :=
  let ip := l.takeWhile Char.isDigit
  let r1 := l.drop ip.length
  match r1 with
  | [] => if ip.isEmpty then none else some (digitsToNat ip : Rat)
  | '.' :: r2 =>
    let fp := r2.takeWhile Char.isDigit
    let r3 := r2.drop fp.length
    if ip.isEmpty && fp.isEmpty then none
    else
      let mant : Rat := (digitsToNat ip : Rat) + (digitsToNat fp : Rat) / ((10 : Rat) ^ fp.length)
      match r3 with
      | [] => some mant
      | e :: r4 =>
        if e = 'e' || e = 'E' then (pyExp r4).map (fun ex => mant * qpow10 ex) else none
  | e :: r4 =>
    if (e = 'e' || e = 'E') && !ip.isEmpty then
      (pyExp r4).map (fun ex => (digitsToNat ip : Rat) * qpow10 ex)
    else none

/-- Python `float(s)`: strip, optional sign, float body.
(`inf` / `nan` literals are not modelled.) `none` models a raised `ValueError`. -/
def pyFloatOfChars (l : List Char) : Option Rat :=
  let (sgn, b) := pySign (pyStrip l)
  (pyFloatBody b).map (fun q => (sgn : Rat) * q)

/-- Python `int(x)` on a number: truncation toward zero. -/
def ratTrunc (q : Rat) : Int :=
  q.num.tdiv q.den

/-- The `(?:(\d+)H)?`-style step of the `PT#H#M#S` regex: a maximal nonempty
digit run immediately followed by the literal `suffix`, or no consumption. -/
def grabNum (l : List Char) (suffix : Char) : Option (Nat × List Char) :=
  let ds := l.takeWhile Char.isDigit
  let rest := l.drop ds.length
  if ds.isEmpty then none
  else
    match rest with
    | c :: r2 => if c = suffix then some (digitsToNat ds, r2) else none
    | [] => none

/-- Matching of `re.match(r'PT(?:(\d+)H)?(?:(\d+)M)?(?:(\d+)S)?', s)` after the
literal `PT`, returning `hours*3600 + minutes*60 + seconds`; each group is
independently optional and trailing junk is ignored (the regex is unanchored
at the end). -/
def ptParse (l : List Char) : Nat :=
  let (h, l1) := match grabNum l 'H' with | some (n, r) => (n, r) | none => (0, l)
  let (m, l2) := match grabNum l1 'M' with | some (n, r) => (n, r) | none => (0, l1)
  let (s, _) := match grabNum l2 'S' with | some (n, r) => (n, r) | none => (0, l2)
  h * 3600 + m * 60 + s

/-- The `parts = [int(p) for p in duration_str.split(':')]` step: `none`
models the `ValueError` raised at the first part that fails to parse. -/
def colonParts (t : List Char) : Option (List Int) :=
  (pySplit ':' t).mapM pyIntOfChars

/-- `YouTubeAnalyzer._parse_duration`.  `none` models a raised exception
(the uncaught `int(p)` in the colon branch); `some n` is a normal return. -/
def _parse_duration (c : Cell) : Option Int :=
  match c with
  | .na => some 0
  | .num q => some (ratTrunc q)
  | .str s =>
    let t := pyStrip s.toList
    if t.contains ':' then
      match colonParts t with
      | some parts =>
        if parts.length = 3 then
          some (parts.getD 0 0 * 3600 + parts.getD 1 0 * 60 + parts.getD 2 0)
        else if parts.length = 2 then
          some (parts.getD 0 0 * 60 + parts.getD 1 0)
        else
          some (parts.getD 0 0)
      | none => none
    else if t.take 2 = ['P', 'T'] then
      some (ptParse (t.drop 2) : Int)
    else
      some (((pyFloatOfChars t).map ratTrunc).getD 0)

/-- The body of the `column_mapping` loop in `load_data`: the canonical name
for one raw column name (case-insensitive, whitespace-trimmed), or `none`
when the name matches no synonym (the column is then left untouched by
`df.rename`). -/
def column_mapping (col : String) : Option String :=
  let l := col.toLower.trim
  if l = "title" then some "title"
  else if l = "category" || l = "channel_title" || l = "channeltitle" then some "category"
  else if l = "views" || l = "view_count" || l = "viewcount" then some "views"
  else if l = "likes" || l = "like_count" || l = "likecount" then some "likes"
  else if l = "comments" || l = "comment_count" || l = "commentcount" then some "comments"
  else if l = "duration" || l = "video_length" || l = "length" then some "duration"
  else if l = "subscribers" || l = "subscriber_count" then some "subscribers"
  else none

/-- A pandas DataFrame: named columns and rows of cells aligned with them. -/
structure Table where
  cols : List String
  rows : List (List Cell)
deriving DecidableEq, Repr

/-- Rows all have exactly one cell per column (always true of a DataFrame). -/
def Table.WF (t : Table) : Prop :=
  ∀ row ∈ t.rows, row.length = t.cols.length

/-- `df = df.rename(columns=column_mapping)`: recognized names are replaced by
their canonical name, all other columns keep their original name. -/
def renameTable (t : Table) : Table :=
  { t with cols := t.cols.map (fun c => (column_mapping c).getD c) }

/-- `required_cols` of `load_data`, in source order. -/
def required_cols : List String :=
  ["title", "category", "views", "likes", "comments", "duration"]

/-- The constant used to synthesize a missing required column:
`'Unknown'` for `category`, the integer `0` for every other column
(including `title`). -/
def defaultCell (col : String) : Cell :=
  if col = "category" then .str "Unknown" else .num 0

/-- The `for col in required_cols` loop of `load_data`: append each required
column that is still missing, filled with its default in every row. -/
def ensureColsAux : List String → Table → Table
  | [], t => t
  | c :: cs, t =>
    ensureColsAux cs
      (if t.cols.contains c then t
       else { cols := t.cols ++ [c], rows := t.rows.map (fun r => r ++ [defaultCell c]) })

/-- The table after renaming and synthesizing required columns. -/
def normalizeTable (t : Table) : Table :=
  ensureColsAux required_cols (renameTable t)

/-- Index of the first column with the given name. -/
def colIdx (cols : List String) (name : String) : Option Nat :=
  match cols with
  | [] => none
  | c :: cs => if c = name then some 0 else (colIdx cs name).map (· + 1)

/-- `df[name]` for one row: the cell under the first column called `name`
(`na` if the column does not exist — unreachable after normalization). -/
def colCell (cols : List String) (row : List Cell) (name : String) : Cell :=
  match colIdx cols name with
  | some i => row.getD i .na
  | none => .na

/-- `pd.to_numeric(x, errors='coerce')` on one cell: numbers pass through,
numeric strings parse, anything else becomes NaN (`none`). -/
def to_numeric (c : Cell) : Option Rat :=
  match c with
  | .na => none
  | .num q => some q
  | .str s => pyFloatOfChars s.toList

/-- `.fillna(0)` on one cell of the coerced column. -/
def fillna0 (o : Option Rat) : Rat := o.getD 0

/-- The full `pd.to_numeric(col, errors='coerce').fillna(0).astype(int)`
chain applied to one cell. -/
def coerceCell (c : Cell) : Int :=
  ratTrunc (fillna0 (to_numeric c))

/-- Round half to even to an integer (numpy / Python 3 `round`). -/
def roundHE (q : Rat) : Int :=
  let f := q.floor
  let r := q - f
  if r < 1 / 2 then f
  else if 1 / 2 < r then f + 1
  else if f % 2 = 0 then f else f + 1

/-- `.round(2)` on one value: round half to even at two decimals. -/
def round2 (q : Rat) : Rat :=
  (roundHE (q * 100) : Rat) / 100

/-- `pd.cut(duration_minutes, bins=[0, 5, 15, 30, inf], labels=[...])` on one
value: right-closed intervals, values outside every interval (in particular
`0` itself) get no bucket. -/
def lengthCategory (m : Rat) : Option String :=
  if 0 < m ∧ m ≤ 5 then some "Short (0-5 min)"
  else if 5 < m ∧ m ≤ 15 then some "Medium (5-15 min)"
  else if 15 < m ∧ m ≤ 30 then some "Long (15-30 min)"
  else if 30 < m then some "Very Long (30+ min)"
  else none

/-- A row after coercion of `views`, `likes`, `comments` and `duration`,
before filtering and derived fields. -/
structure PreRecord where
  title : Cell
  category : Cell
  views : Int
  likes : Int
  comments : Int
  duration : Int
deriving DecidableEq, Repr

/-- A row of `self.data` after `load_data` (canonical fields only; extra
unrecognized columns are carried in the frame but unused downstream, see
`load_data_cols`). -/
structure Record where
  title : Cell
  category : Cell
  views : Int
  likes : Int
  comments : Int
  duration : Int
  engagement_rate : Rat
  duration_minutes : Rat
  length_category : Option String
deriving DecidableEq, Repr

/-- Coercion of one normalized row; `none` models the exception propagating
out of `df['duration'].apply(self._parse_duration)`. -/
def cleanRow (cols : List String) (row : List Cell) : Option PreRecord :=
  match _parse_duration (colCell cols row "duration") with
  | none => none
  | some d =>
    some
      { title := colCell cols row "title"
        category := colCell cols row "category"
        views := coerceCell (colCell cols row "views")
        likes := coerceCell (colCell cols row "likes")
        comments := coerceCell (colCell cols row "comments")
        duration := d }

/-- The derived-field block of `load_data`: engagement rate, duration in
minutes, and the length bucket. -/
def addDerived (p : PreRecord) : Record :=
  let er := round2 (((p.likes : Rat) + (p.comments : Rat)) / (p.views : Rat) * 100)
  let dm := round2 ((p.duration : Rat) / 60)
  { title := p.title, category := p.category, views := p.views, likes := p.likes,
    comments := p.comments, duration := p.duration,
    engagement_rate := er, duration_minutes := dm,
    length_category := lengthCategory dm }

/-- The record set produced by `load_data`: normalize the schema, coerce the
numeric fields, parse durations (`none` = an exception aborts the load),
filter out rows with `views <= 0`, then add derived fields. -/
def load_rows (t : Table) : Option (List Record) :=
  let t1 := normalizeTable t
  (t1.rows.mapM (cleanRow t1.cols)).map
    (fun ps => (ps.filter (fun p => decide (0 < p.views))).map addDerived)

/-- The column list of `self.data` after `load_data`: the renamed original
columns (unrecognized names untouched), the synthesized required columns,
and the three derived columns. -/
def load_data_cols (t : Table) : List String :=
  (normalizeTable t).cols ++ ["engagement_rate", "duration_minutes", "length_category"]

/-- One row of a `.agg({...}).round(0)` result (all values are integral after
`.round(0)`; sums and counts of integers are unchanged by it). -/
structure StatsRow where
  video_count : Int
  total_views : Int
  avg_views : Int
  total_likes : Int
  avg_likes : Int
  total_comments : Int
  avg_comments : Int
  avg_engagement_rate : Int
deriving DecidableEq, Repr

/-- Mean of a list of rationals (groups are nonempty by construction). -/
def meanR (xs : List Rat) : Rat :=
  (xs.foldl (· + ·) 0) / (xs.length : Rat)

/-- The aggregation dict of `analyze_by_category` / `analyze_by_length` on one
group: `'title': 'count'` counts non-null titles, sums and means over the
group, everything rounded half-to-even to 0 decimals. -/
def statsOf (g : List Record) : StatsRow :=
  { video_count := ((g.filter (fun r => r.title != Cell.na)).length : Int)
    total_views := (g.map (·.views)).foldl (· + ·) 0
    avg_views := roundHE (meanR (g.map (fun r => (r.views : Rat))))
    total_likes := (g.map (·.likes)).foldl (· + ·) 0
    avg_likes := roundHE (meanR (g.map (fun r => (r.likes : Rat))))
    total_comments := (g.map (·.comments)).foldl (· + ·) 0
    avg_comments := roundHE (meanR (g.map (fun r => (r.comments : Rat))))
    avg_engagement_rate := roundHE (meanR (g.map (·.engagement_rate))) }

/-- Distinct category keys in first-occurrence order; pandas `groupby` drops
NaN keys.  (pandas additionally sorts keys, which only affects the relative
order of groups with equal `avg_views` after the final descending sort; key
ordering among such ties is not modelled.) -/
def categoryKeys (recs : List Record) : List Cell :=
  recs.foldl
    (fun acc r =>
      if r.category = Cell.na || acc.contains r.category then acc else acc ++ [r.category])
    []

/-- `analyze_by_category` aggregation: group by the category cell, aggregate,
and sort descending by `avg_views`. -/
def category_stats_of (recs : List Record) : List (Cell × StatsRow) :=
  let grouped := (categoryKeys recs).map
    (fun k => (k, statsOf (recs.filter (fun r => r.category == k))))
  grouped.mergeSort (fun a b => b.2.avg_views ≤ a.2.avg_views)

/-- The four bucket labels, in categorical order. -/
def bucketLabels : List String :=
  ["Short (0-5 min)", "Medium (5-15 min)", "Long (15-30 min)", "Very Long (30+ min)"]

/-- `analyze_by_length` aggregation: `groupby('length_category',
observed=True)` keeps only observed buckets, in categorical order; rows with
no bucket (NaN key) are dropped. -/
def length_stats_of (recs : List Record) : List (String × StatsRow) :=
  bucketLabels.filterMap
    (fun b =>
      let g := recs.filter (fun r => r.length_category == some b)
      if g.isEmpty then none else some (b, statsOf g))

/-- `idxmax` over one statistics column: the key of the first row attaining
the maximum, `none` (a raised `ValueError`) on an empty table. -/
def idxmaxBy {α : Type} (f : StatsRow → Int) (rows : List (α × StatsRow)) : Option α :=
  match rows with
  | [] => none
  | x :: xs => some (xs.foldl (fun best y => if f best.2 < f y.2 then y else best) x).1

/-- The mutable attributes of a `YouTubeAnalyzer` instance (`csv_file` is a
fixed path and carried implicitly). -/
structure AnalyzerState where
  data : Option (List Record)
  category_stats : Option (List (Cell × StatsRow))
  length_stats : Option (List (String × StatsRow))
deriving DecidableEq, Repr

/-- The state right after `__init__`. -/
def initState : AnalyzerState := ⟨none, none, none⟩

/-- Each method returns the updated attribute state together with an optional
raised-exception message (`none` = normal return of `self`). -/
abbrev MethodResult := AnalyzerState × Option String

/-- `load_data`, with the parsed CSV contents passed as a `Table`. -/
def load_data (st : AnalyzerState) (t : Table) : MethodResult :=
  match load_rows t with
  | none => (st, some "ValueError: invalid literal for int()")
  | some recs => ({ st with data := some recs }, none)

/-- `analyze_by_category`: precondition check, then aggregate and assign. -/
def analyze_by_category (st : AnalyzerState) : MethodResult :=
  match st.data with
  | none => (st, some "Data not loaded. Call load_data() first.")
  | some recs => ({ st with category_stats := some (category_stats_of recs) }, none)

/-- `analyze_by_length`: precondition check, then aggregate and assign. -/
def analyze_by_length (st : AnalyzerState) : MethodResult :=
  match st.data with
  | none => (st, some "Data not loaded. Call load_data() first.")
  | some recs => ({ st with length_stats := some (length_stats_of recs) }, none)

/-- `display_summary`: precondition check; the body only formats and prints
(console output is outside the model) and assigns nothing. -/
def display_summary (st : AnalyzerState) : MethodResult :=
  match st.data with
  | none => (st, some "Data not loaded. Call load_data() first.")
  | some _ => (st, none)

/-- `plot_category_performance`: precondition check; the body only renders
charts (matplotlib rendering is outside the model) and assigns nothing. -/
def plot_category_performance (st : AnalyzerState) : MethodResult :=
  match st.category_stats with
  | none => (st, some "Category analysis not done. Call analyze_by_category() first.")
  | some _ => (st, none)

/-- `plot_length_performance`: precondition check; the body only renders
charts and assigns nothing. -/
def plot_length_performance (st : AnalyzerState) : MethodResult :=
  match st.length_stats with
  | none => (st, some "Length analysis not done. Call analyze_by_length() first.")
  | some _ => (st, none)

/-- `generate_insights`: precondition check, then the body reads
`category_stats.index[0]` (IndexError on an empty table) and three `idxmax`
calls (ValueError on an empty table); it assigns nothing. -/
def generate_insights (st : AnalyzerState) : MethodResult :=
  match st.category_stats, st.length_stats with
  | some cs, some ls =>
    match cs.head? with
    | none => (st, some "IndexError: index 0 is out of bounds")
    | some _ =>
      match idxmaxBy (·.avg_engagement_rate) cs with
      | none => (st, some "ValueError: attempt to get argmax of an empty sequence")
      | some _ =>
        match idxmaxBy (·.avg_views) ls with
        | none => (st, some "ValueError: attempt to get argmax of an empty sequence")
        | some _ =>
          match idxmaxBy (·.avg_engagement_rate) ls with
          | none => (st, some "ValueError: attempt to get argmax of an empty sequence")
          | some _ => (st, none)
  | _, _ =>
    (st, some "Complete analysis not done. Run analyze_by_category() and analyze_by_length() first.")

/-! ## Theorems -/

/-- `int(x)` of a non-negative number is non-negative. -/
theorem ratTrunc_nonneg (q : Rat) (h : 0 ≤ q) : 0 ≤ ratTrunc q :=
  Int.tdiv_nonneg (Rat.num_nonneg.mpr h) (Int.natCast_nonneg q.den)

/-- `getD` with default `0` over a list of non-negative integers is
non-negative. -/
theorem getD_nonneg : ∀ (l : List Int), (∀ v ∈ l, 0 ≤ v) → ∀ i : Nat, 0 ≤ l.getD i 0
  | [], _, _ => by simp
  | x :: _, h, 0 => by simpa using h x (by simp)
  | _ :: xs, h, (i + 1) => by
    simpa using getD_nonneg xs (fun v hv => h v (by simp [hv])) i

/-- The inputs covered by the amended claim C1: every numeric component is
non-negative, and — the amendment — a string containing `:` must have all
its colon-separated parts parse as integers (otherwise `_parse_duration`
raises, see `c1_counterexample`). The case structure mirrors
`_parse_duration` itself. -/
def cellNonNeg (c : Cell) : Bool :=
  match c with
  | .na => true
  | .num q => decide (0 ≤ q)
  | .str s =>
    let t := pyStrip s.toList
    if t.contains ':' then
      match colonParts t with
      | some parts => parts.all (fun v => decide (0 ≤ v))
      | none => false
    else if t.take 2 = ['P', 'T'] then true
    else
      match pyFloatOfChars t with
      | some q => decide (0 ≤ q)
      | none => true

/-- Claim C1 (amended): for every input whose numeric components are
non-negative and whose colon-separated parts (if any) all parse as
integers, `_parse_duration` returns normally with a non-negative integer. -/
theorem c1_amended (c : Cell) (h : cellNonNeg c = true) :
    ∃ n, _parse_duration c = some n ∧ 0 ≤ n := by
  cases c with
  | na => exact ⟨0, rfl, le_refl 0⟩
  | num q =>
    refine ⟨ratTrunc q, rfl, ratTrunc_nonneg q ?_⟩
    simpa [cellNonNeg] using h
  | str s =>
    simp only [cellNonNeg, String.toList] at h
    simp only [_parse_duration, String.toList]
    by_cases hc : (pyStrip s.data).contains ':'
    · simp only [hc, if_true] at h ⊢
      cases hp : colonParts (pyStrip s.data) with
      | none =>
        rw [hp] at h
        exact absurd h (by decide)
      | some parts =>
        rw [hp] at h
        have hb : parts.all (fun v => decide (0 ≤ v)) = true := h
        have hall : ∀ v ∈ parts, 0 ≤ v := by
          intro v hv
          exact of_decide_eq_true (List.all_eq_true.mp hb v hv)
        dsimp only
        split
        · refine ⟨_, rfl, ?_⟩
          have h0 := getD_nonneg parts hall 0
          have h1 := getD_nonneg parts hall 1
          have h2 := getD_nonneg parts hall 2
          positivity
        · split
          · refine ⟨_, rfl, ?_⟩
            have h0 := getD_nonneg parts hall 0
            have h1 := getD_nonneg parts hall 1
            positivity
          · exact ⟨_, rfl, getD_nonneg parts hall 0⟩
    · simp only [hc, if_false, Bool.false_eq_true] at h ⊢
      by_cases ht : (pyStrip s.data).take 2 = ['P', 'T']
      · simp only [ht, if_true]
        exact ⟨_, rfl, Int.natCast_nonneg _⟩
      · simp only [ht, if_false] at h ⊢
        cases hf : pyFloatOfChars (pyStrip s.data) with
        | none => exact ⟨0, by simp, le_refl 0⟩
        | some q =>
          rw [hf] at h
          have hb : decide (0 ≤ q) = true := h
          exact ⟨ratTrunc q, by simp,
            ratTrunc_nonneg q (of_decide_eq_true hb)⟩

/-- Witness for C1 (amended) at the concrete input `"02:03"`. -/
theorem c1_witness :
    cellNonNeg (.str "02:03") = true ∧
      ∃ n, _parse_duration (.str "02:03") = some n ∧ 0 ≤ n :=
  ⟨by decide, c1_amended (.str "02:03") (by decide)⟩

/-- Claim C3: every record retained by `load_data` has `views > 0` (rows
whose coerced views are `0` — or negative — are filtered out before the
derived-metric block), and its engagement rate equals
`round((likes + comments) / views * 100, 2)`. -/
theorem c3_load_invariant (t : Table) (recs : List Record)
    (h : load_rows t = some recs) :
    ∀ r ∈ recs, 0 < r.views ∧
      r.engagement_rate =
        round2 (((r.likes : Rat) + (r.comments : Rat)) / (r.views : Rat) * 100) := by
  intro r hr
  simp only [load_rows] at h
  cases hm : (normalizeTable t).rows.mapM (cleanRow (normalizeTable t).cols) with
  | none => rw [hm] at h; exact absurd h (by simp)
  | some ps =>
    rw [hm] at h
    simp only [Option.map_some'] at h
    injection h with h
    rw [← h] at hr
    rcases List.mem_map.mp hr with ⟨p, hpmem, hpr⟩
    have hv : 0 < p.views := of_decide_eq_true (List.mem_filter.mp hpmem).2
    subst hpr
    exact ⟨hv, rfl⟩

/-- Input table for the C3 witness (spec §8, first end-to-end row). -/
def tableC3 : Table :=
  ⟨["views", "likes", "comments", "duration"],
   [[.num 100, .num 10, .num 5, .str "00:04:00"]]⟩

/-- The single record `load_data` produces from `tableC3`. -/
def recordC3 : Record :=
  { title := .num 0, category := .str "Unknown", views := 100, likes := 10,
    comments := 5, duration := 240, engagement_rate := 15, duration_minutes := 4,
    length_category := some "Short (0-5 min)" }

/-- Witness for C3 at the concrete table `tableC3`. -/
theorem c3_witness :
    0 < recordC3.views ∧
      recordC3.engagement_rate =
        round2 (((recordC3.likes : Rat) + (recordC3.comments : Rat)) /
          (recordC3.views : Rat) * 100) :=
  c3_load_invariant tableC3 [recordC3] (by with_unfolding_all decide) recordC3
    (List.mem_singleton.mpr rfl)

/-- `ensureColsAux` only appends columns, so it preserves membership. -/
theorem mem_cols_ensureColsAux :
    ∀ (cs : List String) (t : Table) (c : String),
      c ∈ t.cols → c ∈ (ensureColsAux cs t).cols
  | [], _, _, h => h
  | _ :: ds, t, c, h => by
    simp only [ensureColsAux]
    split
    · exact mem_cols_ensureColsAux ds t c h
    · exact mem_cols_ensureColsAux ds _ c (List.mem_append.mpr (Or.inl h))

/-- Claim C4 (amended): a column whose name matches no synonym is *retained*
under its original name in the dataset produced by `load_data` (it is not
renamed and not dropped; it is merely unused downstream). -/
theorem c4_amended (t : Table) (c : String) (hc : c ∈ t.cols)
    (hu : column_mapping c = none) : c ∈ load_data_cols t := by
  have h1 : c ∈ (renameTable t).cols := by
    simp only [renameTable]
    have h2 := List.mem_map_of_mem (fun x => (column_mapping x).getD x) hc
    simpa [hu] using h2
  simp only [load_data_cols, normalizeTable]
  exact List.mem_append.mpr
    (Or.inl (mem_cols_ensureColsAux required_cols (renameTable t) c h1))

/-- Witness for C4 (amended) at the concrete unrecognized column `"bar"`. -/
theorem c4_witness : "bar" ∈ load_data_cols ⟨["bar"], []⟩ :=
  c4_amended ⟨["bar"], []⟩ "bar" (List.mem_singleton.mpr rfl)
    (by with_unfolding_all decide)

/-- A found column index is within bounds. -/
theorem colIdx_lt_length :
    ∀ (cols : List String) (name : String) (i : Nat),
      colIdx cols name = some i → i < cols.length
  | [], _, _, h => by simp [colIdx] at h
  | d :: ds, name, i, h => by
    simp only [colIdx] at h
    split at h
    · cases h; simp
    · cases hi : colIdx ds name with
      | none => rw [hi] at h; cases h
      | some j =>
        rw [hi] at h
        simp only [Option.map_some'] at h
        cases h
        simpa using colIdx_lt_length ds name j hi

/-- A column found on the left of an append is found at the same index. -/
theorem colIdx_append_left :
    ∀ (l l2 : List String) (name : String) (i : Nat),
      colIdx l name = some i → colIdx (l ++ l2) name = some i
  | [], _, _, _, h => by simp [colIdx] at h
  | d :: ds, l2, name, i, h => by
    simp only [List.cons_append, colIdx, List.append_eq] at h ⊢
    split at h
    · split
      · exact h
      · simp_all
    · split
      · simp_all
      · cases hi : colIdx ds name with
        | none => rw [hi] at h; cases h
        | some j =>
          rw [hi] at h
          rw [colIdx_append_left ds l2 name j hi]
          exact h

/-- A fresh column appended on the right is found at the old length. -/
theorem colIdx_append_self :
    ∀ (l : List String) (name : String), name ∉ l →
      colIdx (l ++ [name]) name = some l.length
  | [], name, _ => by simp [colIdx]
  | d :: ds, name, h => by
    have hd : ¬d = name := fun he => h (he ▸ List.mem_cons_self d ds)
    simp only [List.cons_append, colIdx, List.append_eq, hd, if_false]
    rw [colIdx_append_self ds name (fun hm => h (List.mem_cons_of_mem d hm))]
    simp

/-- Appending a column to a well-formed table keeps it well-formed. -/
theorem wf_append_col (t : Table) (c : Cell) (d : String) (hwf : Table.WF t) :
    Table.WF ⟨t.cols ++ [d], t.rows.map (fun r => r ++ [c])⟩ := by
  intro row hrow
  rcases List.mem_map.mp hrow with ⟨r, hr, hrr⟩
  subst hrr
  simp [hwf r hr]

/-- Once a column holds a fixed value at a fixed index in every row, the rest
of the `ensureColsAux` loop (which only appends) preserves both. -/
theorem ensureColsAux_preserves :
    ∀ (cs : List String) (t : Table) (c : String) (v : Cell) (i : Nat),
      Table.WF t → colIdx t.cols c = some i →
      (∀ row ∈ t.rows, row.getD i Cell.na = v) →
      colIdx (ensureColsAux cs t).cols c = some i ∧
        ∀ row ∈ (ensureColsAux cs t).rows, row.getD i Cell.na = v
  | [], _, _, _, _, _, hidx, hval => ⟨hidx, hval⟩
  | d :: ds, t, c, v, i, hwf, hidx, hval => by
    simp only [ensureColsAux]
    split
    · exact ensureColsAux_preserves ds t c v i hwf hidx hval
    · refine ensureColsAux_preserves ds _ c v i (wf_append_col t (defaultCell d) d hwf)
        (colIdx_append_left t.cols [d] c i hidx) ?_
      intro row hrow
      rcases List.mem_map.mp hrow with ⟨r, hr, hrr⟩
      subst hrr
      rw [List.getD_append r [defaultCell d] Cell.na i
        (by rw [hwf r hr]; exact colIdx_lt_length t.cols c i hidx)]
      exact hval r hr

/-- The synthesis loop fills every required column that is absent with its
default, in every row. -/
theorem ensureColsAux_default :
    ∀ (cs : List String) (t : Table), Table.WF t → ∀ c ∈ cs, c ∉ t.cols →
      ∀ row ∈ (ensureColsAux cs t).rows,
        colCell (ensureColsAux cs t).cols row c = defaultCell c
  | [], _, _, c, hc, _ => absurd hc (by simp)
  | d :: ds, t, hwf, c, hc, habs => by
    simp only [ensureColsAux]
    by_cases hd : t.cols.contains d
    · rw [if_pos hd]
      have hmem : c ∈ ds := by
        rcases List.mem_cons.mp hc with h1 | h1
        · exact absurd (h1 ▸ List.elem_iff.mp hd) habs
        · exact h1
      exact ensureColsAux_default ds t hwf c hmem habs
    · rw [if_neg hd]
      by_cases hcd : c = d
      · subst hcd
        intro row hrow
        have hidx : colIdx (t.cols ++ [c]) c = some t.cols.length :=
          colIdx_append_self t.cols c habs
        have hval : ∀ r ∈ (t.rows.map (fun r => r ++ [defaultCell c])),
            r.getD t.cols.length Cell.na = defaultCell c := by
          intro r hr
          rcases List.mem_map.mp hr with ⟨r0, hr0, hrr⟩
          subst hrr
          rw [List.getD_append_right r0 [defaultCell c] Cell.na t.cols.length
            (le_of_eq (hwf r0 hr0))]
          simp [hwf r0 hr0]
        obtain ⟨hidx2, hval2⟩ := ensureColsAux_preserves ds
          ⟨t.cols ++ [c], t.rows.map (fun r => r ++ [defaultCell c])⟩ c
          (defaultCell c) t.cols.length
          (wf_append_col t (defaultCell c) c hwf) hidx hval
        simp only [colCell, hidx2]
        exact hval2 row hrow
      · have hmem : c ∈ ds := by
          rcases List.mem_cons.mp hc with h1 | h1
          · exact absurd h1 hcd
          · exact h1
        refine ensureColsAux_default ds _ (wf_append_col t (defaultCell d) d hwf) c hmem ?_
        intro hin
        rcases List.mem_append.mp hin with h1 | h1
        · exact habs h1
        · exact hcd (List.mem_singleton.mp h1)

/-- Claim C5 (amended): for every well-formed input table and every canonical
column among `title, category, views, likes, comments, duration` that is
absent after renaming, `load_data` synthesizes the column without error:
`category` is filled with the literal string `"Unknown"` and every other
column — including `title` — with the integer `0`. -/
theorem c5_amended (t : Table) (hwf : Table.WF t) (c : String)
    (hc : c ∈ required_cols) (habs : c ∉ (renameTable t).cols) :
    ∀ row ∈ (normalizeTable t).rows,
      colCell (normalizeTable t).cols row c =
        (if c = "category" then Cell.str "Unknown" else Cell.num 0) := by
  have hwf1 : Table.WF (renameTable t) := by
    intro row hrow
    simp only [renameTable, List.length_map]
    exact hwf row hrow
  exact ensureColsAux_default required_cols (renameTable t) hwf1 c hc habs

/-- Input table for the C5 witness: no `title` column. -/
def tableC5 : Table := ⟨["views"], [[Cell.num 7]]⟩

/-- Witness for C5 (amended) at `tableC5`: the synthesized `title` cell of
its only row is the integer `0`. -/
theorem c5_witness :
    colCell (normalizeTable tableC5).cols
      [Cell.num 7, Cell.num 0, Cell.str "Unknown", Cell.num 0, Cell.num 0, Cell.num 0]
      "title" = (if "title" = "category" then Cell.str "Unknown" else Cell.num 0) :=
  c5_amended tableC5
    (by intro row hrow; rw [List.mem_singleton.mp hrow]; rfl) "title"
    (by with_unfolding_all decide) (by with_unfolding_all decide)
    [Cell.num 7, Cell.num 0, Cell.str "Unknown", Cell.num 0, Cell.num 0, Cell.num 0]
    (by with_unfolding_all decide)

/-- On a non-negative rational, truncation toward zero is the floor. -/
theorem ratTrunc_eq_floor (q : Rat) (h : 0 ≤ q) : ratTrunc q = ⌊q⌋ := by
  rw [Rat.floor_def, ratTrunc]
  exact Int.tdiv_eq_ediv (Rat.num_nonneg.mpr h) (Int.natCast_nonneg q.den)

/-- On a non-positive rational, truncation toward zero is the ceiling. -/
theorem ratTrunc_eq_ceil (q : Rat) (h : q ≤ 0) : ratTrunc q = ⌈q⌉ := by
  have hf := ratTrunc_eq_floor (-q) (neg_nonneg.mpr h)
  have hneg : ratTrunc (-q) = -(ratTrunc q) := by
    rw [ratTrunc, ratTrunc, Rat.neg_num, Rat.neg_den, Int.neg_tdiv]
  refine neg_inj.mp ?_
  rw [← hneg, hf, Int.floor_neg]

/-- Claim C6: the `to_numeric(...).fillna(0).astype(int)` chain applied to
`views` / `likes` / `comments` maps a missing cell or a string that fails
numeric parsing to `0`, maps every number and every successfully parsed
numeric string to its truncation toward zero (floor for non-negative values,
ceiling for negative ones), and is total — no exception escapes. -/
theorem c6_coercion :
    coerceCell Cell.na = 0 ∧
    (∀ q : Rat, coerceCell (Cell.num q) = ratTrunc q) ∧
    (∀ s : String, pyFloatOfChars s.toList = none → coerceCell (Cell.str s) = 0) ∧
    (∀ s : String, ∀ q : Rat, pyFloatOfChars s.toList = some q →
      coerceCell (Cell.str s) = ratTrunc q) ∧
    (∀ q : Rat, 0 ≤ q → ratTrunc q = ⌊q⌋) ∧
    (∀ q : Rat, q ≤ 0 → ratTrunc q = ⌈q⌉) := by
  refine ⟨by with_unfolding_all decide, fun q => rfl, ?_, ?_,
    ratTrunc_eq_floor, ratTrunc_eq_ceil⟩
  · intro s h
    simp only [coerceCell, to_numeric, h, fillna0, Option.getD_none]
    with_unfolding_all decide
  · intro s q h
    simp only [coerceCell, to_numeric, h, fillna0, Option.getD_some]

/-- Witness for C6 at concrete cells: the unparsable string `"abc"` coerces
to `0`, and `"-3.9"` coerces to the truncation of `-39/10` (which is `-3`,
its ceiling). -/
theorem c6_witness :
    coerceCell (Cell.str "abc") = 0 ∧
    coerceCell (Cell.str "-3.9") = ratTrunc (-39 / 10) ∧
    ratTrunc (-39 / 10) = ⌈(-39 / 10 : Rat)⌉ :=
  ⟨c6_coercion.2.2.1 "abc" (by decide),
   c6_coercion.2.2.2.1 "-3.9" (-39 / 10) (by with_unfolding_all decide),
   c6_coercion.2.2.2.2.2 (-39 / 10) (by norm_num)⟩

/-- `split` on a separator that does not occur returns the whole string as
the single part. -/
theorem pySplit_of_not_mem (sep : Char) :
    ∀ l : List Char, sep ∉ l → pySplit sep l = [l]
  | [], _ => rfl
  | c :: cs, h => by
    have hcs : c ≠ sep := fun he => h (he ▸ List.mem_cons_self c cs)
    simp only [pySplit, hcs, if_false]
    rw [pySplit_of_not_mem sep cs (fun hm => h (List.mem_cons_of_mem c hm))]

/-- `dropWhile` keeps every element that fails the predicate. -/
theorem mem_dropWhile_of_mem (p : Char → Bool) (c : Char) (hc : p c = false) :
    ∀ l : List Char, c ∈ l → c ∈ l.dropWhile p
  | x :: xs, h => by
    by_cases hx : p x
    · rcases List.mem_cons.mp h with h1 | h1
      · rw [h1] at hc; rw [hc] at hx; cases hx
      · simpa [List.dropWhile, hx] using mem_dropWhile_of_mem p c hc xs h1
    · simpa [List.dropWhile, hx] using h

/-- Stripping never removes a non-whitespace character. -/
theorem mem_pyStrip_of_mem (c : Char) (hc : pySpace c = false) (l : List Char)
    (h : c ∈ l) : c ∈ pyStrip l := by
  simp only [pyStrip]
  rw [List.mem_reverse]
  refine mem_dropWhile_of_mem pySpace c hc _ ?_
  rw [List.mem_reverse]
  exact mem_dropWhile_of_mem pySpace c hc l h

/-- When `int(l)` succeeds, every character of the stripped literal is a
sign or a digit. -/
theorem pyInt_chars (l : List Char) (k : Int) (h : pyIntOfChars l = some k) :
    ∀ x ∈ pyStrip l, x = '-' ∨ x = '+' ∨ x.isDigit = true := by
  simp only [pyIntOfChars] at h
  rcases hsb : pySign (pyStrip l) with ⟨sgn, b⟩
  rw [hsb] at h
  dsimp only at h
  by_cases hcond : (!b.isEmpty && b.all Char.isDigit) = true
  · obtain ⟨hb1, hb2⟩ : b.isEmpty = false ∧ b.all Char.isDigit = true := by
      simpa using hcond
    have hall : ∀ x ∈ b, x.isDigit = true :=
      fun x hx => List.all_eq_true.mp hb2 x hx
    intro x hx
    rcases hst : pyStrip l with _ | ⟨c, rest⟩
    · rw [hst] at hx; cases hx
    · rw [hst] at hsb hx
      simp only [pySign] at hsb
      by_cases hcm : c = '-'
      · rw [if_pos hcm] at hsb
        injection hsb with _ hb
        rcases List.mem_cons.mp hx with h1 | h1
        · exact Or.inl (h1.trans hcm)
        · exact Or.inr (Or.inr (hall x (hb ▸ h1)))
      · rw [if_neg hcm] at hsb
        by_cases hcp : c = '+'
        · rw [if_pos hcp] at hsb
          injection hsb with _ hb
          rcases List.mem_cons.mp hx with h1 | h1
          · exact Or.inr (Or.inl (h1.trans hcp))
          · exact Or.inr (Or.inr (hall x (hb ▸ h1)))
        · rw [if_neg hcp] at hsb
          injection hsb with _ hb
          exact Or.inr (Or.inr (hall x (by rw [← hb]; exact hx)))
  · rw [if_neg hcond] at h; cases h

/-- When `int(l)` succeeds, the stripped literal contains no colon and does
not start with `PT`. -/
theorem pyInt_no_colon_no_PT (l : List Char) (k : Int)
    (h : pyIntOfChars (pyStrip l) = some k) :
    (pyStrip l).contains ':' = false ∧ (pyStrip l).take 2 ≠ ['P', 'T'] := by
  have hchars := pyInt_chars (pyStrip l) k h
  constructor
  · by_contra hcon
    have hm : ':' ∈ pyStrip l := by
      have : (pyStrip l).contains ':' = true := by
        cases hb : (pyStrip l).contains ':'
        · exact absurd hb hcon
        · rfl
      simpa using this
    have hms : ':' ∈ pyStrip (pyStrip l) := mem_pyStrip_of_mem ':' (by decide) _ hm
    rcases hchars ':' hms with h1 | h1 | h1 <;> simp at h1
  · intro htake
    have hp : 'P' ∈ pyStrip l := List.take_subset 2 _ (htake ▸ List.mem_cons_self 'P' ['T'])
    have hms : 'P' ∈ pyStrip (pyStrip l) := mem_pyStrip_of_mem 'P' (by decide) _ hp
    rcases hchars 'P' hms with h1 | h1 | h1 <;> simp at h1

/-- A nonempty all-digit literal is a valid float body with its digit value. -/
theorem pyFloatBody_digits (ds : List Char) (hne : ds.isEmpty = false)
    (hd : ds.all Char.isDigit = true) :
    pyFloatBody ds = some (digitsToNat ds : Rat) := by
  have ht : ds.takeWhile Char.isDigit = ds :=
    List.takeWhile_eq_self_iff.mpr (List.all_eq_true.mp hd)
  simp only [pyFloatBody, ht, List.drop_length, hne]
  rfl

/-- `mapM` over a one-element list succeeds exactly when the parse of that
element does. -/
theorem mapM_pyInt_singleton (u : List Char) :
    List.mapM pyIntOfChars [u] = (pyIntOfChars u).map (fun a => [a]) := by
  cases h : pyIntOfChars u <;> simp [List.mapM, List.mapM.loop, h]

/-- Every integer literal accepted by `int` is accepted by `float` with the
same value. -/
theorem pyFloat_of_pyInt (l : List Char) (k : Int) (h : pyIntOfChars l = some k) :
    pyFloatOfChars l = some (k : Rat) := by
  simp only [pyIntOfChars] at h
  rcases hsb : pySign (pyStrip l) with ⟨sgn, b⟩
  rw [hsb] at h
  dsimp only at h
  by_cases hcond : (!b.isEmpty && b.all Char.isDigit) = true
  · obtain ⟨hb1, hb2⟩ : b.isEmpty = false ∧ b.all Char.isDigit = true := by
      simpa using hcond
    rw [if_pos hcond] at h
    injection h with h
    simp only [pyFloatOfChars, hsb]
    rw [pyFloatBody_digits b hb1 hb2]
    simp only [Option.map_some', Option.some.injEq]
    rw [← h]
    push_cast
    ring
  · rw [if_neg hcond] at h; cases h

/-- `int(x)` of an integer value is that integer. -/
theorem ratTrunc_intCast (k : Int) : ratTrunc ((k : Int) : Rat) = k := by
  rw [ratTrunc, Rat.num_intCast, Rat.den_intCast]
  simp [Int.tdiv_one]

/-- Claim C8: for every duration string whose colon-separated parts all parse
as integers and whose part count is neither 2 nor 3, `_parse_duration`
returns the integer value of the first part only (with 4 or more parts via
the colon branch fallback; with a single part — a string with no colon —
via the plain numeric-string branch, which yields the same value). -/
theorem c8_first_part (s : String) (k : Int) (vs : List Int)
    (hp : colonParts (pyStrip s.data) = some (k :: vs))
    (h2 : (k :: vs).length ≠ 2) (h3 : (k :: vs).length ≠ 3) :
    _parse_duration (.str s) = some k := by
  simp only [_parse_duration, String.toList]
  by_cases hc : (pyStrip s.data).contains ':'
  · simp only [hc, if_true, hp]
    rw [if_neg h3, if_neg h2]
    rfl
  · have hmem : ':' ∉ pyStrip s.data := by
      intro hm
      exact hc (by simpa using hm)
    rw [colonParts, pySplit_of_not_mem ':' _ hmem, mapM_pyInt_singleton] at hp
    cases hpi : pyIntOfChars (pyStrip s.data) with
    | none => rw [hpi] at hp; cases hp
    | some a =>
      rw [hpi] at hp
      injection hp with hp1
      injection hp1 with hak _
      subst hak
      have hPT := (pyInt_no_colon_no_PT s.data a hpi).2
      simp only [hc, if_false, Bool.false_eq_true]
      rw [if_neg hPT, pyFloat_of_pyInt _ _ hpi]
      simp [ratTrunc_intCast]

/-- Witness for C8 at the concrete four-part string `"1:2:3:4"`. -/
theorem c8_witness : _parse_duration (.str "1:2:3:4") = some 1 :=
  c8_first_part "1:2:3:4" 1 [2, 3, 4] (by decide) (by decide) (by decide)

/-- Claim C9 (amended): `analyze_by_category`, `analyze_by_length` and
`display_summary` raise exactly when `data` is unset, and the two plot
methods raise exactly when their statistics table is unset, each with the
message naming the missing prerequisite step; `generate_insights` raises its
precondition error exactly when a statistics table is unset, but when both
are set it raises anyway — a different error — whenever either table is
empty (see `c9_counterexample`), so "raises iff the prerequisite is
missing" does not hold for it. -/
theorem c9_amended (st : AnalyzerState) :
    ((analyze_by_category st).2.isSome ↔ st.data = none) ∧
    (st.data = none →
      (analyze_by_category st).2 = some "Data not loaded. Call load_data() first.") ∧
    ((analyze_by_length st).2.isSome ↔ st.data = none) ∧
    (st.data = none →
      (analyze_by_length st).2 = some "Data not loaded. Call load_data() first.") ∧
    ((display_summary st).2.isSome ↔ st.data = none) ∧
    (st.data = none →
      (display_summary st).2 = some "Data not loaded. Call load_data() first.") ∧
    ((plot_category_performance st).2.isSome ↔ st.category_stats = none) ∧
    (st.category_stats = none →
      (plot_category_performance st).2 =
        some "Category analysis not done. Call analyze_by_category() first.") ∧
    ((plot_length_performance st).2.isSome ↔ st.length_stats = none) ∧
    (st.length_stats = none →
      (plot_length_performance st).2 =
        some "Length analysis not done. Call analyze_by_length() first.") ∧
    (st.category_stats = none ∨ st.length_stats = none →
      (generate_insights st).2 =
        some "Complete analysis not done. Run analyze_by_category() and analyze_by_length() first.") ∧
    (∀ cs0 ls0, st.category_stats = some cs0 → st.length_stats = some ls0 →
      ((generate_insights st).2 = none ↔ cs0 ≠ [] ∧ ls0 ≠ [])) := by
  obtain ⟨d, cs, ls⟩ := st
  refine ⟨?_, ?_, ?_, ?_, ?_, ?_, ?_, ?_, ?_, ?_, ?_, ?_⟩
  · cases d <;> simp [analyze_by_category]
  · intro h; cases h; rfl
  · cases d <;> simp [analyze_by_length]
  · intro h; cases h; rfl
  · cases d <;> simp [display_summary]
  · intro h; cases h; rfl
  · cases cs <;> simp [plot_category_performance]
  · intro h; cases h; rfl
  · cases ls <;> simp [plot_length_performance]
  · intro h; cases h; rfl
  · rintro (h | h) <;> cases h
    · cases ls <;> rfl
    · cases cs <;> rfl
  · intro cs0 ls0 hcs hls
    cases hcs; cases hls
    cases cs0 with
    | nil => simp [generate_insights]
    | cons c0 cr =>
      cases ls0 with
      | nil => simp [generate_insights, idxmaxBy]
      | cons l0 lr => simp [generate_insights, idxmaxBy]

/-- Witness for C9 (amended) at the freshly initialized state: requesting
category aggregation before any data is loaded raises the precondition
error naming `load_data`. -/
theorem c9_witness :
    (analyze_by_category initState).2 =
      some "Data not loaded. Call load_data() first." :=
  (c9_amended initState).2.1 rfl

/-- Claim C2: `_parse_duration` maps `"01:02:03"` to `3723`, `"02:03"` to
`123`, `"PT1H2M3S"` to `3723`, `"PT5M"` to `300`, `"PT"` to `0`, an
absent/null value to `0`, and the number `90` to `90`. -/
theorem c2_parse_duration_values :
    _parse_duration (.str "01:02:03") = some 3723 ∧
    _parse_duration (.str "02:03") = some 123 ∧
    _parse_duration (.str "PT1H2M3S") = some 3723 ∧
    _parse_duration (.str "PT5M") = some 300 ∧
    _parse_duration (.str "PT") = some 0 ∧
    _parse_duration .na = some 0 ∧
    _parse_duration (.num 90) = some 90 := by
  refine ⟨by decide, by decide, by decide, by decide, by decide, by decide,
    by with_unfolding_all decide⟩

/-- Claim C7: the length bucketing maps `duration_minutes` of `5.0` to
`"Short (0-5 min)"`, `5.01` to `"Medium (5-15 min)"`, `30.0` to
`"Long (15-30 min)"`, `30.01` to `"Very Long (30+ min)"`, and exactly `0`
to no bucket at all. -/
theorem c7_bucketing :
    lengthCategory 5 = some "Short (0-5 min)" ∧
    lengthCategory (501 / 100) = some "Medium (5-15 min)" ∧
    lengthCategory 30 = some "Long (15-30 min)" ∧
    lengthCategory (3001 / 100) = some "Very Long (30+ min)" ∧
    lengthCategory 0 = none := by
  refine ⟨?_, ?_, ?_, ?_, ?_⟩ <;> with_unfolding_all decide

/-- Claim C1 is false as stated: on the colon-delimited string `"1:2:x"`
(whose numeric components `1` and `2` are non-negative) the uncaught
`int('x')` of the colon branch raises `ValueError` instead of returning an
integer (`none` models the raised exception). -/
theorem c1_counterexample :
    _parse_duration (.str "1:2:x") = none := by
  decide

/-- Claim C4 is false as stated: the column `"foo"` matches no synonym, yet
after `load_data` the dataset still has a column named `"foo"` —
`df.rename` leaves unrecognized columns in place, it does not drop them. -/
theorem c4_counterexample :
    column_mapping "foo" = none ∧ "foo" ∈ load_data_cols ⟨["foo", "Views"], []⟩ := by
  refine ⟨by with_unfolding_all decide, by with_unfolding_all decide⟩

/-- Claim C5 is false as stated: when `title` is absent from the input,
`load_data` fills it with the integer `0` (`df[col] = 0`), not with the
empty string. -/
theorem c5_counterexample :
    ((normalizeTable ⟨["views"], [[Cell.num 7]]⟩).rows.head?.map
        (fun row => colCell (normalizeTable ⟨["views"], [[Cell.num 7]]⟩).cols row "title"))
      = some (Cell.num 0) ∧ Cell.num 0 ≠ Cell.str "" := by
  refine ⟨?_, ?_⟩ <;> with_unfolding_all decide

/-- Claim C9 is false as stated: after loading a table whose only row has
`views = 0` and running both analyses, every prerequisite is set, yet
`generate_insights` still raises (an IndexError from
`category_stats.index[0]` on the empty statistics table), and not the
precondition error. -/
theorem c9_counterexample :
    (let st1 := (load_data initState ⟨["views"], [[Cell.num 0]]⟩).1
     let st2 := (analyze_by_category st1).1
     let st3 := (analyze_by_length st2).1
     st3.category_stats.isSome ∧ st3.length_stats.isSome ∧
       (generate_insights st3).2 = some "IndexError: index 0 is out of bounds") := by
  refine ⟨?_, ?_, ?_⟩ <;> with_unfolding_all decide

/-- Claim C10: whenever one of the six methods raises, the analyzer
attributes (`data`, `category_stats`, `length_stats`) are exactly what they
were before the call: every precondition check precedes any assignment, and
`display_summary`, the two plot methods and `generate_insights` assign
nothing at all. -/
theorem c10_atomic (st : AnalyzerState) :
    ((analyze_by_category st).2.isSome → (analyze_by_category st).1 = st) ∧
    ((analyze_by_length st).2.isSome → (analyze_by_length st).1 = st) ∧
    ((display_summary st).2.isSome → (display_summary st).1 = st) ∧
    ((plot_category_performance st).2.isSome → (plot_category_performance st).1 = st) ∧
    ((plot_length_performance st).2.isSome → (plot_length_performance st).1 = st) ∧
    ((generate_insights st).2.isSome → (generate_insights st).1 = st) := by
  have hins : (generate_insights st).1 = st := by
    unfold generate_insights
    repeat' split <;> try rfl
  obtain ⟨d, cs, ls⟩ := st
  refine ⟨?_, ?_, ?_, ?_, ?_, fun _ => hins⟩
  · cases d <;> simp [analyze_by_category]
  · cases d <;> simp [analyze_by_length]
  · cases d <;> simp [display_summary]
  · cases cs <;> simp [plot_category_performance]
  · cases ls <;> simp [plot_length_performance]

/-- Witness for C10 at a concrete erroring call: `analyze_by_category` on the
freshly initialized state raises and leaves the state untouched. -/
theorem c10_witness : (analyze_by_category initState).1 = initState :=
  (c10_atomic initState).1 (by with_unfolding_all decide)

end YouTubeAnalysis
